import Mathlib

/-!
Verification of the mode-parser layer of the keyboard-input dispatch engine
(`qutebrowser/keyinput/modeparsers.py`).

The mode-specific parsers (`NormalKeyParser`, `PassthroughKeyParser`,
`HintKeyParser`, `RegisterKeyParser`) are embedded directly from the source.
The shared base keychain matcher (`basekeyparser.BaseKeyParser`), the key
utilities (`keyutils`) and the Qt timer objects are collaborators whose code
is not part of the verified sources; they are modelled from the
specification's description of their interfaces (see the doc comments of
`baseHandle`, `renderSeq` and `Timer`).

Side effects (Qt signal emissions, posted events, command invocations,
user-visible error messages) are made explicit as an ordered list of
`Effect` values returned next to the new parser state.
-/

namespace Modeparsers

/-- Result of matching a working key sequence against a binding table,
mirroring `QKeySequence.SequenceMatch`. -/
inductive SequenceMatch where
  | NoMatch
  | PartialMatch
  | ExactMatch
deriving DecidableEq, Repr

/-- One normalized key press descriptor (`keyutils.KeyInfo`): key code,
display text and whether the key is "special" (non-printable or
modifier-carrying), per the spec's data model. -/
structure KeyInfo where
  key : Nat
  text : String
  special : Bool
deriving DecidableEq, Repr

/-- A raw key event as delivered by the windowing system (`QKeyEvent`):
the resolvable key identity (`info = none` models `InvalidKeyError` on
`KeyInfo.from_event`), the raw key code (`e.key()`), the event text
(`e.text()`) and whether the event is a pure-modifier press
(`keyutils.is_modifier_key(e.key())`). -/
structure KeyEvent where
  info : Option KeyInfo
  key : Nat
  text : String
  modifier : Bool
deriving DecidableEq, Repr

/-- Qt key code of `Qt.Key.Key_Backspace`. -/
def backspaceKey : Nat := 16777219

/-- An ordered sequence of key descriptors (`keyutils.KeySequence`). -/
abbrev KeySeq := List KeyInfo

/-- Modelled from the spec: rendering a `KeySequence` to its canonical
textual notation (`str(self._sequence)`); the development only relies on
the rendering of the empty sequence being the empty string. -/
def renderSeq (s : KeySeq) : String :=
  s.foldl (fun acc k => acc ++ k.text) ""

/-- A mode-scoped binding table: key sequence to command string (or hint
label payload in hint mode). -/
abbrev Bindings := List (KeySeq × String)

/-- `isStartOf xs ys` is true when `xs` is an initial segment of `ys`
(positional equality on a front part of `ys`). -/
def isStartOf : KeySeq → KeySeq → Bool
  | [], _ => true
  | _ :: _, [] => false
  | x :: xs, y :: ys => decide (x = y) && isStartOf xs ys

/-- Modelled from the spec: classification of the working sequence against
the binding table — exact when a binding equals the sequence, partial when
the non-empty sequence is a proper initial segment of at least one binding,
none otherwise. -/
def classify (b : Bindings) (s : KeySeq) : SequenceMatch :=
  if s = [] then .NoMatch
  else if b.any (fun p => decide (p.1 = s)) then .ExactMatch
  else if b.any (fun p => isStartOf s p.1 && decide (s.length < p.1.length)) then
    .PartialMatch
  else .NoMatch

/-- Payload of the first binding equal to the given sequence. -/
def lookupExact (b : Bindings) (s : KeySeq) : String :=
  match b.find? (fun p => decide (p.1 = s)) with
  | some p => p.2
  | none => ""

/-- The construction-time mode of a `RegisterKeyParser`: `markSet` is
`KeyMode.set_mark`, `markJump` is `KeyMode.jump_mark`, `macroRecord` is
`KeyMode.record_macro` and `macroRun` is `KeyMode.run_macro`. -/
inductive RegisterMode where
  | markSet
  | markJump
  | macroRecord
  | macroRun
deriving DecidableEq, Repr

/-- Observable side effects of handling one key event, in emission order:
`keystringUpdated` is the `keystring_updated` signal; `filterHints` and
`hintHandlePartialKey` are calls into the hint subsystem
(`filter_hints` / `handle_partial_key`); `runCommand` is
`CommandRunner.run`; `messageError` is `message.error`; `requestLeave` is
the `request_leave` signal; `postPress` / `postRelease` are synthesized
key events posted to the focused window; `registerAction` is the invoked
mark/macro action; `assertCountFail` records a failure of the
`assert count is None` in `HintKeyParser.execute`. -/
inductive Effect where
  | keystringUpdated (s : String)
  | filterHints (s : String)
  | hintHandlePartialKey (s : String)
  | runCommand (cmd : String) (count : Option Nat)
  | messageError (msg : String)
  | requestLeave (mode : RegisterMode) (reason : String) (success : Bool)
  | postPress (k : KeyInfo)
  | postRelease (k : KeyInfo)
  | registerAction (mode : RegisterMode) (key : String)
  | assertCountFail
deriving DecidableEq, Repr

/-- Working state of the base keychain matcher: the accumulated sequence
and the pending numeric-count digit buffer. -/
structure BaseState where
  sequence : KeySeq
  countStr : String
deriving DecidableEq, Repr

/-- Outcome of one `handle` call of the base matcher: match result, new
state and emitted effects, in order. -/
structure BaseResult where
  result : SequenceMatch
  state : BaseState
  effects : List Effect
deriving DecidableEq, Repr

/-- Decimal-digit test on a character. -/
def isDigitChar (c : Char) : Bool := 48 ≤ c.toNat && c.toNat ≤ 57

/-- Numeric value of a digit string (the count resolution `int(count)`). -/
def digitsToNat (s : String) : Nat :=
  s.data.foldl (fun acc c => acc * 10 + (c.toNat - 48)) 0

/-- Whether the event text is consumed as a count digit: the mode supports
counts, the text is a non-empty run of digits, the working sequence is
empty, and the digit is not a literal leading `0` (a `0` with an empty
count buffer is treated as a literal key). -/
def isCountDigit (supportsCount : Bool) (st : BaseState) (txt : String) : Bool :=
  supportsCount && !(decide (txt = "")) && txt.data.all isDigitChar
    && decide (st.sequence = [])
    && !(decide (txt = "0") && decide (st.countStr = ""))

/-- Modelled from the spec: `BaseKeyParser.handle` (the shared base
keychain matcher of `basekeyparser.py`, which is not among the verified
sources). Pure-modifier presses and unresolvable keys are ignored; a count
digit extends the count buffer with a `PartialMatch`; otherwise the key is
appended to the working sequence and classified. On a live `ExactMatch`
the state is cleared, the mode's `execute` hook (passed in as `exec`) is
invoked with the payload and resolved count, and an empty keystring update
is emitted; a live `PartialMatch` keeps the extended sequence and emits
the rendered keystring (count digits first); a live `NoMatch` clears a
previously non-empty sequence and emits the cleared notification. With
`dryRun` only the classification is returned, with no state mutation and
no effects. -/
def baseHandle (supportsCount : Bool) (b : Bindings)
    (exec : String → Option Nat → List Effect)
    (st : BaseState) (e : KeyEvent) (dryRun : Bool) : BaseResult :=
  if e.modifier then ⟨.NoMatch, st, []⟩ else
  match e.info with
  | none => ⟨.NoMatch, st, []⟩
  | some info =>
    if isCountDigit supportsCount st e.text then
      if dryRun then ⟨.PartialMatch, st, []⟩ else
      let st' : BaseState := ⟨st.sequence, st.countStr ++ e.text⟩
      ⟨.PartialMatch, st', [.keystringUpdated (st'.countStr ++ renderSeq st'.sequence)]⟩
    else
      let newSeq := st.sequence ++ [info]
      if dryRun then ⟨classify b newSeq, st, []⟩ else
      match classify b newSeq with
      | .ExactMatch =>
        let count := if st.countStr = "" then none else some (digitsToNat st.countStr)
        ⟨.ExactMatch, ⟨[], ""⟩, exec (lookupExact b newSeq) count ++ [.keystringUpdated ""]⟩
      | .PartialMatch =>
        ⟨.PartialMatch, ⟨newSeq, st.countStr⟩,
          [.keystringUpdated (st.countStr ++ renderSeq newSeq)]⟩
      | .NoMatch =>
        if st.sequence = [] then ⟨.NoMatch, st, []⟩
        else ⟨.NoMatch, ⟨[], ""⟩, [.keystringUpdated ""]⟩

/-- `CommandKeyParser.execute`: run the resolved command through the
command runner (a `cmdexc.Error` there is reported to the user inside the
runner wrapper and does not reach the matcher). -/
def cmdExec (cmd : String) (count : Option Nat) : List Effect :=
  [.runCommand cmd count]

/-- `HintKeyParser.execute`: `assert count is None`, then deliver the
resolved payload to the hint subsystem via `handle_partial_key`. -/
def hintExec (cmd : String) (count : Option Nat) : List Effect :=
  if count = none then [.hintHandlePartialKey cmd] else [.assertCountFail]

/-- Modelled from the spec: a Qt-style single-shot timer
(`usertypes.Timer`), reduced to its observable scheduling state — whether
a firing is scheduled and the configured interval in milliseconds.
Starting an already-active timer cancels the previously scheduled firing
(no duplicate firings); firing deactivates a single-shot timer. -/
structure Timer where
  active : Bool
  interval : Nat
deriving DecidableEq, Repr

/-- State of a `NormalKeyParser`: the base matcher state, the single-shot
partial-match timer, the inhibition flag and the single-shot inhibition
timer. -/
structure NormalState where
  base : BaseState
  partialTimer : Timer
  inhibited : Bool
  inhibitedTimer : Timer
deriving DecidableEq, Repr

/-- Outcome of one `NormalKeyParser.handle` call. -/
structure NormalResult where
  result : SequenceMatch
  state : NormalState
  effects : List Effect
deriving DecidableEq, Repr

namespace NormalKeyParser

/-- `NormalKeyParser.handle`: short-circuit to `NoMatch` while inhibited;
otherwise defer to the base matcher and, on a live `PartialMatch` with a
non-zero configured `input.partial_timeout`, set the partial-match
timer's interval to the timeout and (re)start it. -/
def handle (b : Bindings) (partialTimeout : Nat)
    (st : NormalState) (e : KeyEvent) (dryRun : Bool) : NormalResult :=
  if st.inhibited then ⟨.NoMatch, st, []⟩ else
  let r := baseHandle true b cmdExec st.base e dryRun
  if r.result = .PartialMatch ∧ dryRun = false ∧ partialTimeout ≠ 0 then
    ⟨r.result, ⟨r.state, ⟨true, partialTimeout⟩, st.inhibited, st.inhibitedTimer⟩,
      r.effects⟩
  else
    ⟨r.result, ⟨r.state, st.partialTimer, st.inhibited, st.inhibitedTimer⟩, r.effects⟩

/-- `NormalKeyParser._clear_partial_match` (the slot connected to the
partial-match timer): reset the working sequence to the empty sequence
and emit its rendering through `keystring_updated`. -/
def clearPartialMatch (st : NormalState) : NormalState × List Effect :=
  (⟨⟨[], st.base.countStr⟩, st.partialTimer, st.inhibited, st.inhibitedTimer⟩,
    [.keystringUpdated (renderSeq [])])

/-- Firing of the single-shot partial-match timer: the timer deactivates
and its connected slot `_clear_partial_match` runs. -/
def firePartialTimer (st : NormalState) : NormalState × List Effect :=
  clearPartialMatch
    ⟨st.base, ⟨false, st.partialTimer.interval⟩, st.inhibited, st.inhibitedTimer⟩

/-- `NormalKeyParser.set_inhibited_timeout`: for a non-zero duration,
set the inhibition flag and (re)start the single-shot inhibition timer
with that duration as interval; a zero duration does nothing. -/
def setInhibitedTimeout (st : NormalState) (timeout : Nat) : NormalState :=
  if timeout ≠ 0 then
    ⟨st.base, st.partialTimer, true, ⟨true, timeout⟩⟩
  else st

/-- `NormalKeyParser._clear_inhibited` (the slot connected to the
inhibition timer, also callable directly as an explicit cancellation):
reset the inhibition flag. -/
def clearInhibited (st : NormalState) : NormalState :=
  ⟨st.base, st.partialTimer, false, st.inhibitedTimer⟩

/-- Firing of the single-shot inhibition timer: the timer deactivates and
its connected slot `_clear_inhibited` runs. -/
def fireInhibitedTimer (st : NormalState) : NormalState :=
  clearInhibited
    ⟨st.base, st.partialTimer, st.inhibited, ⟨false, st.inhibitedTimer.interval⟩⟩

end NormalKeyParser

/-- State of a `PassthroughKeyParser`: the base matcher state and the
one-shot `_ignore_next_key` suppression flag. -/
structure PassthroughState where
  base : BaseState
  ignoreNextKey : Bool
deriving DecidableEq, Repr

/-- Termination mode of a call that may end in an uncaught Python
exception: `ok` is a normal return, `raised` an exception propagating out
of `handle` (the state mutations and effects performed before the raise
persist; nothing after it runs). -/
inductive PyResult where
  | ok (result : SequenceMatch)
  | raised (err : String)
deriving DecidableEq, Repr

/-- Outcome of one `PassthroughKeyParser.handle` call. -/
structure PassthroughResult where
  result : PyResult
  state : PassthroughState
  effects : List Effect
deriving DecidableEq, Repr

/-- The uncaught exception raised by the forwarding branch of
`PassthroughKeyParser.handle`: `modeparsers.py` never imports
`QApplication` (nor `QEvent`), so evaluating `QApplication.focusWindow()`
raises `NameError`. -/
def qApplicationNameError : String := "NameError: name QApplication is not defined"

namespace PassthroughKeyParser

/-- `PassthroughKeyParser.handle`: pure-modifier events and events
arriving while `_ignore_next_key` is set are returned as `NoMatch`
without classification (a live call consumes the flag, a dry-run call
keeps it). Otherwise the base matcher runs; any result other than a live
`NoMatch` for a previously non-empty working sequence is returned
unchanged. The forwarding branch then evaluates
`QApplication.focusWindow()` — but `QApplication` is never imported in
`modeparsers.py`, so an uncaught `NameError` propagates out of the call
before the focus window is consulted, before the suppression flag is set
and before any press or release event is synthesized; the base matcher's
state mutations and emissions performed by `super().handle(e)` persist. -/
def handle (b : Bindings)
    (st : PassthroughState) (e : KeyEvent) (dryRun : Bool) : PassthroughResult :=
  if e.modifier || st.ignoreNextKey then
    ⟨.ok .NoMatch, ⟨st.base, st.ignoreNextKey && dryRun⟩, []⟩
  else
    let sequence := st.base.sequence
    let r := baseHandle true b cmdExec st.base e dryRun
    if dryRun = true ∨ sequence = [] ∨ r.result ≠ .NoMatch then
      ⟨.ok r.result, ⟨r.state, st.ignoreNextKey⟩, r.effects⟩
    else
      ⟨.raised qApplicationNameError, ⟨r.state, st.ignoreNextKey⟩, r.effects⟩

end PassthroughKeyParser

/-- `LastPress`: whether the last keypress filtered a text or was part of
a keystring. -/
inductive LastPress where
  | none
  | filtertext
  | keystring
deriving DecidableEq, Repr

/-- State of a `HintKeyParser`: its own matcher state (over the
hint-label binding table), the state of the embedded command matcher, the
filter text and the nature of the last keypress. -/
structure HintState where
  base : BaseState
  cmdParser : BaseState
  filtertext : String
  lastPress : LastPress
deriving DecidableEq, Repr

/-- Outcome of one `HintKeyParser.handle` call. -/
structure HintResult where
  result : SequenceMatch
  state : HintState
  effects : List Effect
deriving DecidableEq, Repr

/-- `filtertext[:-1]`: the filter text without its final character. -/
def strDropLast (s : String) : String := ⟨s.data.dropLast⟩

namespace HintKeyParser

/-- `HintKeyParser.__init__`: empty matchers, empty filter text,
`_last_press = LastPress.none`; both the parser and its embedded command
matcher are constructed with `supports_count=False`. -/
def initialState : HintState := ⟨⟨[], ""⟩, ⟨[], ""⟩, "", .none⟩

/-- `HintKeyParser._handle_filter_key`: Backspace deletes one character
from the filter text (when the last press was not a keystring press and
filter text remains) or drops the last key of the working sequence (when
the last press was a keystring press and the sequence is non-empty),
switching back to filter mode when that empties the sequence while filter
text remains; otherwise Backspace is `NoMatch`. A non-Backspace key
appends its non-empty text to the filter text and re-filters, but only
while the hint subsystem's `current_mode()` is `'number'`. -/
def handleFilterKey (hintCurrentMode : String) (st : HintState)
    (e : KeyEvent) : HintResult :=
  if e.key = backspaceKey then
    if st.lastPress ≠ .keystring ∧ st.filtertext ≠ "" then
      let ft := strDropLast st.filtertext
      ⟨.ExactMatch, ⟨st.base, st.cmdParser, ft, st.lastPress⟩, [.filterHints ft]⟩
    else if st.lastPress = .keystring ∧ st.base.sequence ≠ [] then
      let newSeq := st.base.sequence.dropLast
      if newSeq = [] ∧ st.filtertext ≠ "" then
        ⟨.ExactMatch,
          ⟨⟨newSeq, st.base.countStr⟩, st.cmdParser, st.filtertext, .filtertext⟩,
          [.keystringUpdated (renderSeq newSeq), .filterHints st.filtertext]⟩
      else
        ⟨.ExactMatch,
          ⟨⟨newSeq, st.base.countStr⟩, st.cmdParser, st.filtertext, st.lastPress⟩,
          [.keystringUpdated (renderSeq newSeq)]⟩
    else ⟨.NoMatch, st, []⟩
  else if hintCurrentMode ≠ "number" then ⟨.NoMatch, st, []⟩
  else if e.text = "" then ⟨.NoMatch, st, []⟩
  else
    let ft := st.filtertext ++ e.text
    ⟨.ExactMatch, ⟨st.base, st.cmdParser, ft, .filtertext⟩, [.filterHints ft]⟩

/-- `HintKeyParser.handle`: a dry-run call defers to the (dry) base
matcher over the hint-label table. A live call first dry-runs the
embedded command matcher; when that reports other than `NoMatch`, this
parser's own keystring is cleared (emitting the empty keystring update)
and the embedded matcher handles the event live. Otherwise the own
matcher runs live: `PartialMatch` and `ExactMatch` update `_last_press`,
and on `NoMatch` the call is decided by `handleFilterKey` — the effects
already emitted inside `super().handle(e)` (in particular the
`keystring_updated` clear notification when a non-empty sequence failed
to continue) precede the filter handler's own effects. -/
def handle (hintBindings cmdBindings : Bindings) (hintCurrentMode : String)
    (st : HintState) (e : KeyEvent) (dryRun : Bool) : HintResult :=
  if dryRun then
    let r := baseHandle false hintBindings hintExec st.base e true
    ⟨r.result, ⟨r.state, st.cmdParser, st.filtertext, st.lastPress⟩, r.effects⟩
  else
    if (baseHandle false cmdBindings cmdExec st.cmdParser e true).result ≠ .NoMatch then
      let rc := baseHandle false cmdBindings cmdExec st.cmdParser e false
      ⟨rc.result, ⟨⟨[], ""⟩, rc.state, st.filtertext, st.lastPress⟩,
        .keystringUpdated "" :: rc.effects⟩
    else
      let r := baseHandle false hintBindings hintExec st.base e false
      match r.result with
      | .PartialMatch =>
        ⟨.PartialMatch, ⟨r.state, st.cmdParser, st.filtertext, .keystring⟩, r.effects⟩
      | .ExactMatch =>
        ⟨.ExactMatch, ⟨r.state, st.cmdParser, st.filtertext, .none⟩, r.effects⟩
      | .NoMatch =>
        let rf := handleFilterKey hintCurrentMode
          ⟨r.state, st.cmdParser, st.filtertext, st.lastPress⟩ e
        ⟨rf.result, rf.state, r.effects ++ rf.effects⟩

end HintKeyParser

namespace RegisterKeyParser

/-- `RegisterKeyParser.handle`: defer to the base matcher (constructed
with `supports_count=False`); any result other than a live `NoMatch` is
returned unchanged. On a live `NoMatch`, an unresolvable or special key
is returned as `NoMatch`; otherwise the action selected by the
construction-time register mode is invoked with the event's text as
register name (`actionErr` is the externally determined outcome: a
`cmdexc.Error` message is reported via `message.error` and swallowed),
`request_leave(mode, "valid register key", True)` is emitted, and
`ExactMatch` is returned. -/
def handle (b : Bindings) (registerMode : RegisterMode) (actionErr : Option String)
    (st : BaseState) (e : KeyEvent) (dryRun : Bool) : BaseResult :=
  let r := baseHandle false b cmdExec st e dryRun
  if r.result ≠ .NoMatch ∨ dryRun = true then r
  else
    match e.info with
    | none => ⟨.NoMatch, r.state, r.effects⟩
    | some info =>
      if info.special then ⟨.NoMatch, r.state, r.effects⟩
      else
        ⟨.ExactMatch, r.state,
          r.effects ++ [.registerAction registerMode e.text]
            ++ (match actionErr with
                | none => []
                | some msg => [.messageError msg])
            ++ [.requestLeave registerMode "valid register key" true]⟩

end RegisterKeyParser

/-- Whether an effect is a synthesized (posted) press or release event. -/
def isPost : Effect → Bool
  | .postPress _ => true
  | .postRelease _ => true
  | _ => false

/-! ## Concrete fixtures used by witnesses and counterexamples -/

/-- The `f` key. -/
def kF : KeyInfo := ⟨70, "f", false⟩

/-- The `g` key. -/
def kG : KeyInfo := ⟨71, "g", false⟩

/-- The `h` key. -/
def kH : KeyInfo := ⟨72, "h", false⟩

/-- A key-press event for `f`. -/
def eF : KeyEvent := ⟨some kF, 70, "f", false⟩

/-- A key-press event for `g`. -/
def eG : KeyEvent := ⟨some kG, 71, "g", false⟩

/-- A key-press event for `h`. -/
def eH : KeyEvent := ⟨some kH, 72, "h", false⟩

/-- A key-press event for Backspace (special, no text). -/
def eBack : KeyEvent := ⟨some ⟨backspaceKey, "", true⟩, backspaceKey, "", false⟩

/-- A freshly constructed `NormalKeyParser` state: empty matcher, both
timers idle, not inhibited. -/
def normalInit : NormalState := ⟨⟨[], ""⟩, ⟨false, 0⟩, false, ⟨false, 0⟩⟩

/-- A `NormalKeyParser` state in the middle of an inhibition window, with
a pending partial sequence and count. -/
def inhibitedState : NormalState := ⟨⟨[kF], "2"⟩, ⟨true, 100⟩, true, ⟨true, 50⟩⟩

/-- A `HintKeyParser` state whose last press extended the filter text. -/
def hintFilterState : HintState := ⟨⟨[], ""⟩, ⟨[], ""⟩, "ab", .filtertext⟩

/-! ## Helper lemmas about the base matcher -/

/-- A dry-run call of the base matcher mutates no state and emits no
effects. -/
theorem baseHandle_dry (sc : Bool) (b : Bindings)
    (ex : String → Option Nat → List Effect) (st : BaseState) (e : KeyEvent) :
    (baseHandle sc b ex st e true).state = st
      ∧ (baseHandle sc b ex st e true).effects = [] := by
  unfold baseHandle
  split
  · exact ⟨rfl, rfl⟩
  · split
    · exact ⟨rfl, rfl⟩
    · split
      · exact ⟨rfl, rfl⟩
      · exact ⟨rfl, rfl⟩

/-- The base matcher with the command-runner `execute` hook never posts
synthesized press or release events. -/
theorem baseHandle_cmdExec_no_posts (sc : Bool) (b : Bindings) (st : BaseState)
    (e : KeyEvent) (d : Bool) :
    ((baseHandle sc b cmdExec st e d).effects.all (fun fx => !isPost fx)) = true := by
  simp only [baseHandle]
  repeat' split
  all_goals simp_all [cmdExec, isPost]

/-- On a live base `NoMatch` for a non-modifier event with a resolvable
key, the resulting working sequence is empty (either it was empty before,
or the failed continuation cleared it). -/
theorem baseHandle_noMatch_seq_empty (sc : Bool) (b : Bindings)
    (ex : String → Option Nat → List Effect) (st : BaseState) (e : KeyEvent)
    (i : KeyInfo) (hmod : e.modifier = false) (hinfo : e.info = some i)
    (h : (baseHandle sc b ex st e false).result = .NoMatch) :
    (baseHandle sc b ex st e false).state.sequence = [] := by
  have hd : (baseHandle sc b ex st e false).result ≠ .NoMatch ∨
      (baseHandle sc b ex st e false).state.sequence = [] := by
    simp only [baseHandle, hinfo, hmod, Bool.false_eq_true, if_false]
    repeat' split
    all_goals simp_all
  exact hd.resolve_left (fun hn => hn h)

/-- The base matcher with `supports_count=False` keeps an empty count
buffer empty. -/
theorem baseHandle_noCount_countStr (b : Bindings)
    (ex : String → Option Nat → List Effect) (st : BaseState) (e : KeyEvent)
    (d : Bool) (h : st.countStr = "") :
    (baseHandle false b ex st e d).state.countStr = "" := by
  simp only [baseHandle]
  repeat' split
  all_goals simp_all [isCountDigit]

/-- The base matcher over the hint parser's `execute` hook never records
an assertion failure when the count buffer is empty: the resolved count is
`none`, so `hintExec` only delivers the payload to the hint subsystem. -/
theorem baseHandle_hintExec_no_assert (b : Bindings) (st : BaseState)
    (e : KeyEvent) (d : Bool) (h : st.countStr = "") :
    Effect.assertCountFail ∉ (baseHandle false b hintExec st e d).effects := by
  simp only [baseHandle]
  repeat' split
  all_goals simp_all [isCountDigit, hintExec]

/-- The base matcher with the command-runner `execute` hook never records
an assertion failure (that effect only arises from `hintExec`). -/
theorem baseHandle_cmdExec_no_assert (sc : Bool) (b : Bindings) (st : BaseState)
    (e : KeyEvent) (d : Bool) :
    Effect.assertCountFail ∉ (baseHandle sc b cmdExec st e d).effects := by
  simp only [baseHandle]
  repeat' split
  all_goals simp_all [cmdExec]

/-- `handleFilterKey` does not touch the count buffer of the hint
parser's own matcher. -/
theorem handleFilterKey_countStr (mode : String) (st : HintState) (e : KeyEvent) :
    (HintKeyParser.handleFilterKey mode st e).state.base.countStr
      = st.base.countStr := by
  simp only [HintKeyParser.handleFilterKey]
  repeat' split
  all_goals rfl

/-- `handleFilterKey` only emits hint-filter and keystring-update
notifications, never an assertion failure. -/
theorem handleFilterKey_no_assert (mode : String) (st : HintState) (e : KeyEvent) :
    Effect.assertCountFail ∉ (HintKeyParser.handleFilterKey mode st e).effects := by
  simp only [HintKeyParser.handleFilterKey]
  repeat' split
  all_goals simp

/-! ## Claims -/

/-- C1: for every key event handled live (`dry_run=False`) by the hint
mode parser, if a dry-run of the embedded command matcher reports anything
other than `NoMatch`, the hint parser first clears its own keystring
(emitting the empty keystring update) and the result of the call is the
embedded command matcher's live handling of the same event; the hint-label
table is not consulted for that event — the outcome is identical for any
hint-label binding table and any hint-subsystem mode. -/
theorem C1_hint_command_dry_run_priority
    (hb hb' cb : Bindings) (mode mode' : String) (st : HintState) (e : KeyEvent)
    (h : (baseHandle false cb cmdExec st.cmdParser e true).result ≠ .NoMatch) :
    HintKeyParser.handle hb cb mode st e false =
      ⟨(baseHandle false cb cmdExec st.cmdParser e false).result,
        ⟨⟨[], ""⟩, (baseHandle false cb cmdExec st.cmdParser e false).state,
          st.filtertext, st.lastPress⟩,
        .keystringUpdated "" :: (baseHandle false cb cmdExec st.cmdParser e false).effects⟩
    ∧ HintKeyParser.handle hb cb mode st e false =
      HintKeyParser.handle hb' cb mode' st e false := by
  constructor
  · simp only [HintKeyParser.handle, Bool.false_eq_true, if_false, if_pos h]
  · simp only [HintKeyParser.handle, Bool.false_eq_true, if_false, if_pos h]

/-- C1 witness: with `f` bound to a hint-mode command, the live handling
of `f` is independent of the hint-label table and the hint subsystem
mode. -/
theorem C1_witness :
    HintKeyParser.handle [] [([kF], "message-info f")] "number"
        HintKeyParser.initialState eF false =
      HintKeyParser.handle [([kG], "gg")] [([kF], "message-info f")] "filter"
        HintKeyParser.initialState eF false :=
  (C1_hint_command_dry_run_priority [] [([kG], "gg")] [([kF], "message-info f")]
    "number" "filter" HintKeyParser.initialState eF (by decide)).2

/-- C2: every live `PartialMatch` result of `NormalKeyParser.handle` with
a non-zero configured partial timeout (re)starts the single-shot
partial-match timer with interval equal to the timeout, regardless of the
timer's previous state (so a later key before firing restarts the
window); when that timer fires it deactivates, the working sequence
becomes empty and a `keystring_updated` notification carrying the empty
string is emitted. -/
theorem C2_partial_timeout_restart
    (b : Bindings) (timeout : Nat) (st : NormalState) (e : KeyEvent)
    (ht : timeout ≠ 0)
    (hm : (NormalKeyParser.handle b timeout st e false).result = .PartialMatch) :
    (NormalKeyParser.handle b timeout st e false).state.partialTimer
      = ⟨true, timeout⟩
    ∧ ∀ st' : NormalState, st'.partialTimer.active = true →
        (NormalKeyParser.firePartialTimer st').1.base.sequence = []
        ∧ (NormalKeyParser.firePartialTimer st').1.partialTimer.active = false
        ∧ (NormalKeyParser.firePartialTimer st').2 = [.keystringUpdated ""] := by
  refine ⟨?_, fun st' h' => ⟨rfl, rfl, rfl⟩⟩
  unfold NormalKeyParser.handle at hm ⊢
  by_cases hi : st.inhibited
  · simp [hi] at hm
  · simp only [hi, Bool.false_eq_true, if_false] at hm ⊢
    by_cases hp : (baseHandle true b cmdExec st.base e false).result = .PartialMatch
    · rw [if_pos ⟨hp, trivial, ht⟩]
    · rw [if_neg (fun hc => hp hc.1)] at hm
      exact absurd hm hp

/-- C2 witness: pressing `f` against the binding `fg` from a fresh normal
state with timeout 100 yields a live `PartialMatch` whose state has the
partial-match timer active with interval 100. -/
theorem C2_witness :
    (NormalKeyParser.handle [([kF, kG], "message-info fg")] 100
        normalInit eF false).state.partialTimer = ⟨true, 100⟩ :=
  (C2_partial_timeout_restart [([kF, kG], "message-info fg")] 100 normalInit eF
    (by decide) (by decide)).1

/-- C5: while normal mode is inhibited, every `handle` call — for any
event and any `dry_run` value — returns `NoMatch` with the state
unchanged (no matcher mutation, no timer start) and no effects;
`set_inhibited_timeout` with a non-zero duration activates inhibition and
starts the inhibition timer with that duration as interval; inhibition
ends when the single-shot inhibition timer fires, and immediately when
the clearing slot is invoked directly. -/
theorem C5_inhibition
    (b : Bindings) (timeout : Nat) (st : NormalState) (e : KeyEvent) (dryRun : Bool)
    (h : st.inhibited = true) :
    NormalKeyParser.handle b timeout st e dryRun = ⟨.NoMatch, st, []⟩
    ∧ (∀ (st' : NormalState) (t : Nat), t ≠ 0 →
        (NormalKeyParser.setInhibitedTimeout st' t).inhibited = true
        ∧ (NormalKeyParser.setInhibitedTimeout st' t).inhibitedTimer = ⟨true, t⟩)
    ∧ (∀ st' : NormalState, st'.inhibitedTimer.active = true →
        (NormalKeyParser.fireInhibitedTimer st').inhibited = false
        ∧ (NormalKeyParser.fireInhibitedTimer st').inhibitedTimer.active = false)
    ∧ (∀ st' : NormalState, (NormalKeyParser.clearInhibited st').inhibited = false) := by
  refine ⟨?_, fun st' t ht => ?_, fun st' h' => ⟨rfl, rfl⟩, fun st' => rfl⟩
  · unfold NormalKeyParser.handle
    simp [h]
  · unfold NormalKeyParser.setInhibitedTimeout
    rw [if_pos ht]
    exact ⟨rfl, rfl⟩

/-- C5 witness: in a concrete inhibited state with a pending sequence,
count and running timers, a live `g` press is ignored wholesale. -/
theorem C5_witness :
    NormalKeyParser.handle [([kF, kG], "message-info fg")] 100 inhibitedState eG false
      = ⟨.NoMatch, inhibitedState, []⟩ :=
  (C5_inhibition [([kF, kG], "message-info fg")] 100 inhibitedState eG false rfl).1

/-- C10: calling `set_inhibited_timeout` with duration 0 on the normal
mode parser leaves the whole state unchanged — inhibition is not
activated, no timer is started, an already-active inhibition is not
cancelled — and every subsequent `handle` call behaves exactly as without
the call. -/
theorem C10_zero_inhibit_timeout (st : NormalState) :
    NormalKeyParser.setInhibitedTimeout st 0 = st
    ∧ (st.inhibited = true →
        (NormalKeyParser.setInhibitedTimeout st 0).inhibited = true)
    ∧ ∀ (b : Bindings) (timeout : Nat) (e : KeyEvent) (d : Bool),
        NormalKeyParser.handle b timeout (NormalKeyParser.setInhibitedTimeout st 0) e d
          = NormalKeyParser.handle b timeout st e d := by
  have h0 : NormalKeyParser.setInhibitedTimeout st 0 = st := by
    unfold NormalKeyParser.setInhibitedTimeout
    simp
  exact ⟨h0, fun h => by rw [h0, h], fun b t e d => by rw [h0]⟩

/-- C10 witness: a zero-duration call on an actively inhibited state is a
no-op and keeps the inhibition active. -/
theorem C10_witness :
    NormalKeyParser.setInhibitedTimeout inhibitedState 0 = inhibitedState
    ∧ (NormalKeyParser.setInhibitedTimeout inhibitedState 0).inhibited = true :=
  ⟨(C10_zero_inhibit_timeout inhibitedState).1,
    (C10_zero_inhibit_timeout inhibitedState).2.1 rfl⟩

/-- C6 counterexample: the claim says suppression "applies only to live
(non-dry_run) handling, so dry-run calls neither consume the suppression
nor are affected by it". With the flag set and `f` bound, a dry-run call
nevertheless returns `NoMatch` without re-classification, although the
dry-run classification of the very same event reports `ExactMatch`:
dry-run calls are affected by the flag (they merely do not consume it). -/
theorem C6_counterexample :
    PassthroughKeyParser.handle [([kF], "message-info f")]
        ⟨⟨[], ""⟩, true⟩ eF true
      = ⟨.ok .NoMatch, ⟨⟨[], ""⟩, true⟩, []⟩
    ∧ (baseHandle true [([kF], "message-info f")] cmdExec ⟨[], ""⟩ eF true).result
      = .ExactMatch := by
  constructor
  · rfl
  · rfl

/-- C6 (amended): while the suppression flag is set, every handled event
— live or dry-run — is returned as `NoMatch` without re-classification;
a live (non-dry_run) call consumes the flag, so exactly the immediately
following live event is suppressed, while dry-run calls leave the flag
set (they are suppressed too but do not consume it). -/
theorem C6_suppression_amended
    (b : Bindings) (st : PassthroughState) (e : KeyEvent) (d : Bool)
    (h : st.ignoreNextKey = true) :
    PassthroughKeyParser.handle b st e d = ⟨.ok .NoMatch, ⟨st.base, d⟩, []⟩ := by
  unfold PassthroughKeyParser.handle
  simp [h]

/-- C6 witness: a live call with the flag set is suppressed and consumes
the flag. -/
theorem C6_witness :
    PassthroughKeyParser.handle [([kF], "message-info f")]
        ⟨⟨[], ""⟩, true⟩ eF false
      = ⟨.ok .NoMatch, ⟨⟨[], ""⟩, false⟩, []⟩ :=
  C6_suppression_amended [([kF], "message-info f")] ⟨⟨[], ""⟩, true⟩ eF false rfl

/-- C3: evaluation of the code at the claim's scenario — pending working
sequence `f`, live `g` press resolving to `NoMatch` against the binding
`fh`. The forwarding that the claim (and the passthrough parser's own
docstring) describes cannot happen: `modeparsers.py` never imports
`QApplication`, so the handler raises an uncaught `NameError` at the
`QApplication.focusWindow()` lookup — after the base matcher's clear
notification, but before the focus window is consulted, before any press
or release is synthesized and before the suppression flag is set.
Moreover no call of the parser, on any input, ever posts a press or
release event. -/
theorem C3_forwarding_name_error :
    PassthroughKeyParser.handle [([kF, kH], "message-info fh")]
        ⟨⟨[kF], ""⟩, false⟩ eG false
      = ⟨.raised qApplicationNameError, ⟨⟨[], ""⟩, false⟩, [.keystringUpdated ""]⟩
    ∧ ∀ (b : Bindings) (st : PassthroughState) (e : KeyEvent) (d : Bool),
        (PassthroughKeyParser.handle b st e d).effects.all
          (fun fx => !isPost fx) = true := by
  refine ⟨by decide, fun b st e d => ?_⟩
  simp only [PassthroughKeyParser.handle]
  split
  · rfl
  · split
    · exact baseHandle_cmdExec_no_posts true b st.base e d
    · exact baseHandle_cmdExec_no_posts true b st.base e d

/-- C4: in register mode, on a live base `NoMatch` for an event carrying
a resolvable, non-special (and hence non-modifier) key, the action
selected by the construction-time register mode is invoked with the
event's text as the register name; a command error raised by the action
is reported to the user and swallowed; the mode-leave request with
`success=True` is emitted in either case; the call returns `ExactMatch`
and the working sequence stays empty (no chain accumulation). -/
theorem C4_register_key_capture
    (b : Bindings) (m : RegisterMode) (actionErr : Option String)
    (st : BaseState) (e : KeyEvent) (i : KeyInfo)
    (hmod : e.modifier = false) (hinfo : e.info = some i) (hsp : i.special = false)
    (hnm : (baseHandle false b cmdExec st e false).result = .NoMatch) :
    RegisterKeyParser.handle b m actionErr st e false =
      ⟨.ExactMatch, (baseHandle false b cmdExec st e false).state,
        (baseHandle false b cmdExec st e false).effects
          ++ [.registerAction m e.text]
          ++ (match actionErr with
              | none => []
              | some msg => [.messageError msg])
          ++ [.requestLeave m "valid register key" true]⟩
    ∧ (RegisterKeyParser.handle b m actionErr st e false).state.sequence = [] := by
  have h1 : RegisterKeyParser.handle b m actionErr st e false =
      ⟨.ExactMatch, (baseHandle false b cmdExec st e false).state,
        (baseHandle false b cmdExec st e false).effects
          ++ [.registerAction m e.text]
          ++ (match actionErr with
              | none => []
              | some msg => [.messageError msg])
          ++ [.requestLeave m "valid register key" true]⟩ := by
    unfold RegisterKeyParser.handle
    simp [hnm, hinfo, hsp]
  refine ⟨h1, ?_⟩
  rw [h1]
  exact baseHandle_noMatch_seq_empty false b cmdExec st e i hmod hinfo hnm

/-- C4 witness: pressing `h` (unbound) in macro-record register mode with
a failing action still reports the error, leaves the mode with success
and returns `ExactMatch`. -/
theorem C4_witness :
    RegisterKeyParser.handle [([kF, kG], "message-info fg")] .macroRecord
        (some "no such macro") ⟨[], ""⟩ eH false
      = ⟨.ExactMatch, ⟨[], ""⟩,
          [.registerAction .macroRecord "h", .messageError "no such macro",
           .requestLeave .macroRecord "valid register key" true]⟩ := by
  have h := (C4_register_key_capture [([kF, kG], "message-info fg")] .macroRecord
    (some "no such macro") ⟨[], ""⟩ eH kH rfl rfl rfl (by decide)).1
  exact h.trans (by decide)

/-- C7: in hint mode, when the embedded command matcher's dry-run and the
hint-label matcher's live handling both report `NoMatch`, the call is
decided by the filter-key handler, the base matcher's own live effects
(its clear notification when a non-empty sequence failed to continue)
preceding the filter handler's; in the filter handler, on Backspace: if the last press
extended the filter text (last press not a keystring press) and the
filter text is non-empty, one character is removed from the filter text
and the hint subsystem is re-filtered; if the last press extended the
keystring and the working sequence is non-empty, the last key is dropped
from the sequence and a keystring-updated notification is emitted, and if
this empties the sequence while filter text remains, the hint subsystem
is re-filtered with the filter text and the parser returns to filter-text
mode; both deletion cases return `ExactMatch`, and Backspace with nothing
to delete returns `NoMatch` with no state change. -/
theorem C7_hint_backspace
    (hb cb : Bindings) (mode : String) (st : HintState) (e : KeyEvent)
    (hkey : e.key = backspaceKey) :
    ((baseHandle false cb cmdExec st.cmdParser e true).result = .NoMatch →
      (baseHandle false hb hintExec st.base e false).result = .NoMatch →
      HintKeyParser.handle hb cb mode st e false =
        ⟨(HintKeyParser.handleFilterKey mode
            ⟨(baseHandle false hb hintExec st.base e false).state, st.cmdParser,
              st.filtertext, st.lastPress⟩ e).result,
          (HintKeyParser.handleFilterKey mode
            ⟨(baseHandle false hb hintExec st.base e false).state, st.cmdParser,
              st.filtertext, st.lastPress⟩ e).state,
          (baseHandle false hb hintExec st.base e false).effects
            ++ (HintKeyParser.handleFilterKey mode
                ⟨(baseHandle false hb hintExec st.base e false).state, st.cmdParser,
                  st.filtertext, st.lastPress⟩ e).effects⟩)
    ∧ (st.lastPress ≠ .keystring → st.filtertext ≠ "" →
        HintKeyParser.handleFilterKey mode st e =
          ⟨.ExactMatch,
            ⟨st.base, st.cmdParser, strDropLast st.filtertext, st.lastPress⟩,
            [.filterHints (strDropLast st.filtertext)]⟩)
    ∧ (st.lastPress = .keystring → st.base.sequence ≠ [] →
        ¬(st.base.sequence.dropLast = [] ∧ st.filtertext ≠ "") →
        HintKeyParser.handleFilterKey mode st e =
          ⟨.ExactMatch,
            ⟨⟨st.base.sequence.dropLast, st.base.countStr⟩, st.cmdParser,
              st.filtertext, st.lastPress⟩,
            [.keystringUpdated (renderSeq st.base.sequence.dropLast)]⟩)
    ∧ (st.lastPress = .keystring → st.base.sequence ≠ [] →
        st.base.sequence.dropLast = [] → st.filtertext ≠ "" →
        HintKeyParser.handleFilterKey mode st e =
          ⟨.ExactMatch,
            ⟨⟨[], st.base.countStr⟩, st.cmdParser, st.filtertext, .filtertext⟩,
            [.keystringUpdated "", .filterHints st.filtertext]⟩)
    ∧ (((st.lastPress = .keystring ∧ st.base.sequence = [])
        ∨ (st.lastPress ≠ .keystring ∧ st.filtertext = "")) →
        HintKeyParser.handleFilterKey mode st e = ⟨.NoMatch, st, []⟩) := by
  refine ⟨fun h1 h2 => ?_, fun h1 h2 => ?_, fun h1 h2 h3 => ?_,
    fun h1 h2 h3 h4 => ?_, fun h1 => ?_⟩
  · simp only [HintKeyParser.handle, Bool.false_eq_true, if_false]
    simp [h1, h2]
  · unfold HintKeyParser.handleFilterKey
    simp [hkey, h1, h2]
  · unfold HintKeyParser.handleFilterKey
    simp [hkey, h1, h2, h3]
  · unfold HintKeyParser.handleFilterKey
    simp [hkey, h1, h2, h3, h4, renderSeq]
  · unfold HintKeyParser.handleFilterKey
    rcases h1 with ⟨h1, h2⟩ | ⟨h1, h2⟩
    · simp [hkey, h1, h2]
    · simp [hkey, h1, h2]

/-- C7 witness: Backspace after filter text `ab` (last press filter-text)
removes one character and re-filters. -/
theorem C7_witness :
    HintKeyParser.handleFilterKey "number" hintFilterState eBack =
      ⟨.ExactMatch, ⟨⟨[], ""⟩, ⟨[], ""⟩, "a", .filtertext⟩, [.filterHints "a"]⟩ := by
  have h := (C7_hint_backspace [] [] "number" hintFilterState eBack rfl).2.1
    (by decide) (by decide)
  exact h.trans (by decide)

/-- C8: a non-Backspace key that reaches text-filter handling appends its
text to the filter text, re-filters the hint subsystem and returns
`ExactMatch` if and only if the hint subsystem reports the text-filtering
(`'number'`) sub-mode and the event carries non-empty text; otherwise the
call returns `NoMatch` and the state (filter text included) is
unchanged. -/
theorem C8_hint_filter_append
    (mode : String) (st : HintState) (e : KeyEvent)
    (hkey : e.key ≠ backspaceKey) :
    (mode = "number" → e.text ≠ "" →
      HintKeyParser.handleFilterKey mode st e =
        ⟨.ExactMatch,
          ⟨st.base, st.cmdParser, st.filtertext ++ e.text, .filtertext⟩,
          [.filterHints (st.filtertext ++ e.text)]⟩)
    ∧ (mode ≠ "number" ∨ e.text = "" →
      HintKeyParser.handleFilterKey mode st e = ⟨.NoMatch, st, []⟩) := by
  constructor
  · intro h1 h2
    unfold HintKeyParser.handleFilterKey
    simp [hkey, h1, h2]
  · intro h1
    unfold HintKeyParser.handleFilterKey
    rcases h1 with h1 | h1
    · simp [hkey, h1]
    · by_cases h2 : mode = "number"
      · simp [hkey, h1, h2]
      · simp [hkey, h2]

/-- C8 witness: the `f` press with non-empty text in `'number'` sub-mode
appends to the filter text and re-filters. -/
theorem C8_witness :
    HintKeyParser.handleFilterKey "number" hintFilterState eF =
      ⟨.ExactMatch, ⟨⟨[], ""⟩, ⟨[], ""⟩, "abf", .filtertext⟩,
        [.filterHints "abf"]⟩ := by
  have h := (C8_hint_filter_append "number" hintFilterState eF (by decide)).1
    rfl (by decide)
  exact h.trans (by decide)

/-- C9: the hint mode parser and its embedded command matcher are
constructed with count support disabled, so an (initially empty) count
buffer stays empty across every `handle` call, the `execute` hook is only
invoked with count `None` — its `assert count is None` never fails in any
run — and the payload of a resolved hint chain is delivered to the hint
subsystem via `handle_partial_key` (that is what `hintExec` does for a
`None` count), not to the command engine. -/
theorem C9_hint_count_disabled
    (hb cb : Bindings) (mode : String) (st : HintState) (e : KeyEvent) (d : Bool)
    (h : st.base.countStr = "") :
    (HintKeyParser.handle hb cb mode st e d).state.base.countStr = ""
    ∧ Effect.assertCountFail ∉ (HintKeyParser.handle hb cb mode st e d).effects
    ∧ HintKeyParser.initialState.base.countStr = ""
    ∧ ∀ cmd : String, hintExec cmd none = [Effect.hintHandlePartialKey cmd] := by
  have hb1 := baseHandle_noCount_countStr hb hintExec st.base e false h
  have hb2 := baseHandle_noCount_countStr hb hintExec st.base e true h
  have e1 := baseHandle_hintExec_no_assert hb st.base e false h
  have e2 := baseHandle_hintExec_no_assert hb st.base e true h
  have e3 := baseHandle_cmdExec_no_assert false cb st.cmdParser e false
  refine ⟨?_, ?_, rfl, fun cmd => rfl⟩
  · simp only [HintKeyParser.handle]
    split
    · exact hb2
    · split
      · rfl
      · split
        · exact hb1
        · exact hb1
        · rw [handleFilterKey_countStr]
          exact hb1
  · simp only [HintKeyParser.handle]
    split
    · exact e2
    · split
      · intro hmem
        rcases List.mem_cons.mp hmem with h' | h'
        · simp at h'
        · exact e3 h'
      · split
        · exact e1
        · exact e1
        · intro hmem
          rcases List.mem_append.mp hmem with h' | h'
          · exact e1 h'
          · exact handleFilterKey_no_assert mode
              ⟨(baseHandle false hb hintExec st.base e false).state, st.cmdParser,
                st.filtertext, st.lastPress⟩ e h' 

/-- C9 witness: handling `f` against the hint label `f` from the initial
hint state keeps the count buffer empty and triggers no assertion
failure. -/
theorem C9_witness :
    (HintKeyParser.handle [([kF], "f")] [] "number"
        HintKeyParser.initialState eF false).state.base.countStr = ""
    ∧ Effect.assertCountFail ∉
        (HintKeyParser.handle [([kF], "f")] [] "number"
          HintKeyParser.initialState eF false).effects := by
  have h := C9_hint_count_disabled [([kF], "f")] [] "number"
    HintKeyParser.initialState eF false rfl
  exact ⟨h.1, h.2.1⟩

end Modeparsers
